import Mathlib

/-!
Verification development for the db-backup utility.

The definitions below are shallow embeddings of the Go sources:
`pkg/validation/validation.go`, `pkg/errors/errors.go`, `pkg/utils`
(GenerateBackupID), and the argv builders of the MySQL, PostgreSQL and
MongoDB drivers.  Strings are modelled by Lean `String` (a list of
unicode scalar values, matching Go strings interpreted as rune
sequences); Go `len` (UTF-8 byte length) is modelled by `goLen`.
Machine integers carry no overflow concerns at the sizes involved and
are modelled by `Nat`/`Int`.
-/

/-- Decidable prefix test on lists: `leads pre l` holds when `l` starts
with `pre`.  Models Go `strings.HasPrefix` (restricted to whole-rune
prefixes, which is equivalent on valid UTF-8). -/
def leads {α : Type} [DecidableEq α] : List α → List α → Bool
  | [], _ => true
  | _ :: _, [] => false
  | p :: ps, x :: xs => if p = x then leads ps xs else false

/-- Substring occurrence test: models Go `strings.Contains`. -/
def containsSeq (sub : List Char) : List Char → Bool
  | [] => leads sub []
  | c :: cs' => leads sub (c :: cs') || containsSeq sub cs'

/-- Go `strings.HasPrefix s pre`. -/
def goStartsWith (s pre : String) : Bool := leads pre.data s.data

/-- Go `strings.Contains s sub`. -/
def goContains (s sub : String) : Bool := containsSeq sub.data s.data

/-- UTF-8 byte length of a rune sequence. -/
def utf8Len : List Char → Nat
  | [] => 0
  | c :: cs => c.utf8Size + utf8Len cs

/-- Go `len` on a string: its UTF-8 byte length. -/
def goLen (s : String) : Nat := utf8Len s.data

/-- The decimal digit character for `m` (`m` is always a value of `n % 10`). -/
def digitChar (m : Nat) : Char :=
  if m = 0 then '0' else if m = 1 then '1' else if m = 2 then '2'
  else if m = 3 then '3' else if m = 4 then '4' else if m = 5 then '5'
  else if m = 6 then '6' else if m = 7 then '7' else if m = 8 then '8' else '9'

/-- Decimal rendering worker; `fuel ≥ 1` suffices for `fuel > n`-free
termination bookkeeping (structural recursion on `fuel`). -/
def decDigitsAux : Nat → Nat → List Char → List Char
  | 0, _, acc => acc
  | fuel + 1, n, acc =>
    if n < 10 then digitChar (n % 10) :: acc
    else decDigitsAux fuel (n / 10) (digitChar (n % 10) :: acc)

/-- Decimal rendering of a natural number; models `fmt` verb `%d`. -/
def decDigitsL (n : Nat) : List Char := decDigitsAux (n + 1) n []

/-- Decimal rendering of an integer; models `fmt` verb `%d`. -/
def intDecStr (i : Int) : List Char :=
  if i < 0 then '-' :: decDigitsL i.natAbs else decDigitsL i.toNat

/-- Left zero-padding to width `w`; models Go time layout fields such as
`2006`, `01`, `15` (zero-padded decimal). -/
def padNat (w n : Nat) : List Char :=
  List.replicate (w - (decDigitsL n).length) '0' ++ decDigitsL n

/-- Outcome tester for `error`-returning Go functions embedded as `Except`. -/
def okB {α : Type} (e : Except String α) : Bool :=
  match e with
  | .ok _ => true
  | .error _ => false

namespace validation

/-- Character class of `DatabaseNameRegex`, the regexp
`^[a-zA-Z0-9_-]+$` from `pkg/validation/validation.go`. -/
def isDbNameChar (c : Char) : Bool :=
  ('a' ≤ c && c ≤ 'z') || ('A' ≤ c && c ≤ 'Z') || ('0' ≤ c && c ≤ '9') ||
    c = '_' || c = '-'

/-- Character class of `TableNameRegex`, the regexp `^[a-zA-Z0-9_.-]+$`. -/
def isTableNameChar (c : Char) : Bool :=
  ('a' ≤ c && c ≤ 'z') || ('A' ≤ c && c ≤ 'Z') || ('0' ≤ c && c ≤ '9') ||
    c = '_' || c = '.' || c = '-'

/-- Model of `regexp.MatchString` for an anchored one-or-more character
class `^[class]+$`: the string is non-empty and every rune is in the class. -/
def matchClassPlus (p : Char → Bool) (s : String) : Bool :=
  !s.data.isEmpty && s.data.all p

/-- Embeds `validation.ValidateDatabaseName` (validation.go lines 21-46). -/
def ValidateDatabaseName (name : String) : Except String Unit :=
  if name = "" then .error "database name cannot be empty"
  else if goLen name > 64 then .error "database name too long (max 64 characters)"
  else if goStartsWith name "-" then .error "database name cannot start with dash"
  else if goStartsWith name "." then .error "database name cannot start with dot"
  else if !matchClassPlus isDbNameChar name then
    .error "database name contains invalid characters (only alphanumeric, underscore, and hyphen allowed)"
  else .ok ()

/-- Embeds `validation.ValidateTableName` (validation.go lines 48-73). -/
def ValidateTableName (name : String) : Except String Unit :=
  if name = "" then .error "table name cannot be empty"
  else if goLen name > 128 then .error "table name too long (max 128 characters)"
  else if goStartsWith name "-" then .error "table name cannot start with dash"
  else if goStartsWith name "." then .error "table name cannot start with dot"
  else if !matchClassPlus isTableNameChar name then
    .error "table name contains invalid characters"
  else .ok ()

/-- Embeds `validation.ValidateCompressionLevel` (validation.go lines 133-139). -/
def ValidateCompressionLevel (level : Int) : Except String Unit :=
  if level < -1 ∨ level > 9 then
    .error ("compression level must be between -1 and 9, got " ++ ⟨intDecStr level⟩)
  else .ok ()

end validation

namespace errs

/-- Go `type ErrorType string` from `pkg/errors/errors.go`. -/
abbrev ErrorType := String

def ErrorTypeDatabase : ErrorType := "DATABASE"
def ErrorTypeStorage : ErrorType := "STORAGE"
def ErrorTypeCompression : ErrorType := "COMPRESSION"
def ErrorTypeEncryption : ErrorType := "ENCRYPTION"
def ErrorTypeValidation : ErrorType := "VALIDATION"
def ErrorTypeConfiguration : ErrorType := "CONFIGURATION"
def ErrorTypeNetwork : ErrorType := "NETWORK"
def ErrorTypeRetention : ErrorType := "RETENTION"
def ErrorTypeOperation : ErrorType := "OPERATION"
def ErrorTypeNotFound : ErrorType := "NOT_FOUND"
def ErrorTypeInternal : ErrorType := "INTERNAL"

/-- The error values of the program: a structured `BackupError` (its
`Type`, `Message` and wrapped `Err`; the `StackTrace` and `Metadata`
fields of errors.go are runtime diagnostics no claim observes and are
omitted), a plain error from `errors.New`, or an error wrapped with the
`fmt` `%w` verb. -/
inductive GoErr : Type where
  | backup (etype : ErrorType) (message : String) (cause : Option GoErr)
  | plain (message : String)
  | wrapped (message : String) (cause : GoErr)

/-- Model of `errors.As(err, &backupErr)`: the first `*BackupError` in
the unwrap chain, if any, as its `(Type, Message, Err)` triple. -/
def errorsAsBackupError : GoErr → Option (ErrorType × String × Option GoErr)
  | .backup t m c => some (t, m, c)
  | .plain _ => none
  | .wrapped _ c => errorsAsBackupError c

/-- Embeds `errors.Wrap` (errors.go lines 70-91): wrapping `nil` yields
`nil`; the wrapper keeps the wrapped `BackupError` type when the
requested type is empty. -/
def Wrap (err : Option GoErr) (errType : ErrorType) (message : String) : Option GoErr :=
  match err with
  | none => none
  | some e =>
    let t :=
      match errorsAsBackupError e with
      | some (bt, _, _) => if errType = "" then bt else errType
      | none => errType
    some (.backup t message (some e))

/-- Embeds `errors.IsRetryable` (errors.go lines 201-209). -/
def IsRetryable (err : Option GoErr) : Bool :=
  match err with
  | none => false
  | some e =>
    match errorsAsBackupError e with
    | some (t, _, _) => t = ErrorTypeNetwork || t = ErrorTypeStorage
    | none => false

end errs

namespace database

/-- Connection configuration fields the argv builders read (the pool,
timeout and SSL fields of `internal/database` are unused by them and
omitted). -/
structure ConnectionConfig where
  host : String
  port : Int
  username : String
  password : String
  database : String

/-- Backup option fields read by the dump-argv builders. -/
structure BackupOptions where
  database : String
  databases : List String
  allDatabases : Bool
  tables : List String
  excludeTables : List String
  consistentBackup : Bool
  parallel : Int
  outputPath : String

/-- Restore option fields read by the restore-argv builders. -/
structure RestoreOptions where
  database : String
  sourceBackup : String
  dropExisting : Bool
  parallel : Int
  pointInTime : Option Int
  tables : List String

end database

/-- Observable behaviour of a streaming backup/restore call: the
subprocesses it spawns (name and argv), the chunks it writes to the
provided writer, and the error it returns. -/
structure StreamOutcome where
  spawned : List (String × List String)
  written : List String
  err : Option errs.GoErr

namespace mongodb

/-- Validation-and-append loop over `opts.Tables` in
`buildMongoDumpArgs` (mongodb/driver.go lines 373-381). -/
def appendCollections : List String → List String → Except String (List String)
  | [], args => .ok args
  | c :: cs, args =>
    match validation.ValidateTableName c with
    | .error e => .error e
    | .ok _ => appendCollections cs (args ++ ["--collection", c])

/-- Embeds `buildMongoDumpArgs` (mongodb/driver.go lines 348-393).
Error-message wrapping (`invalid database name %q: %w`) is passed
through unchanged. -/
def buildMongoDumpArgs (cfg : database.ConnectionConfig)
    (opts : database.BackupOptions) : Except String (List String) :=
  let args := ["--host", cfg.host, "--port", (⟨intDecStr cfg.port⟩ : String),
    "--out", opts.outputPath, "--gzip"]
  let args := if cfg.username ≠ "" then args ++ ["--username", cfg.username] else args
  let args := if cfg.password ≠ "" then args ++ ["--password", cfg.password] else args
  match (if opts.database ≠ "" then validation.ValidateDatabaseName opts.database
    else .ok ()) with
  | .error e => .error e
  | .ok _ =>
    let args := if opts.database ≠ "" then args ++ ["--db", opts.database] else args
    match appendCollections opts.tables args with
    | .error e => .error e
    | .ok args =>
      let args := if opts.consistentBackup then args ++ ["--oplog"] else args
      let args := if opts.parallel > 1 then
          args ++ ["--numParallelCollections", (⟨intDecStr opts.parallel⟩ : String)]
        else args
      .ok args

/-- Embeds `buildMongoRestoreArgs` (mongodb/driver.go lines 396-441). -/
def buildMongoRestoreArgs (cfg : database.ConnectionConfig)
    (opts : database.RestoreOptions) : Except String (List String) :=
  let args := ["--host", cfg.host, "--port", (⟨intDecStr cfg.port⟩ : String), "--gzip"]
  let args := if cfg.username ≠ "" then args ++ ["--username", cfg.username] else args
  let args := if cfg.password ≠ "" then args ++ ["--password", cfg.password] else args
  match (if opts.database ≠ "" then validation.ValidateDatabaseName opts.database
    else .ok ()) with
  | .error e => .error e
  | .ok _ =>
    let args := if opts.database ≠ "" then args ++ ["--db", opts.database] else args
    let args := if opts.dropExisting then args ++ ["--drop"] else args
    let args := if opts.parallel > 1 then
        args ++ ["--numParallelCollections", (⟨intDecStr opts.parallel⟩ : String)]
      else args
    let args :=
      match opts.pointInTime with
      | some unix => args ++ ["--oplogReplay", "--oplogLimit", (⟨intDecStr unix ++ [':', '0']⟩ : String)]
      | none => args
    .ok (args ++ [opts.sourceBackup])

/-- Embeds `MongoDBDriver.StreamBackup` (mongodb/driver.go lines
149-154): the body is a single `return` of a DATABASE-typed error; it
spawns nothing and writes nothing. -/
def StreamBackup (_opts : database.BackupOptions) : StreamOutcome :=
  ⟨[], [], some (.backup errs.ErrorTypeDatabase
    "MongoDB streaming backup not implemented - use file-based backup" none)⟩

/-- Embeds `MongoDBDriver.StreamRestore` (mongodb/driver.go lines
228-232). -/
def StreamRestore (_opts : database.RestoreOptions) : StreamOutcome :=
  ⟨[], [], some (.backup errs.ErrorTypeDatabase
    "MongoDB streaming restore not implemented - use file-based restore" none)⟩

end mongodb

namespace mysql

/-- First-error validation loop over a list of names. -/
def validateEach (f : String → Except String Unit) : List String → Except String Unit
  | [] => .ok ()
  | x :: xs =>
    match f x with
    | .error e => .error e
    | .ok _ => validateEach f xs

/-- Validation-and-append loop over `opts.ExcludeTables` in
`buildMySQLDumpArgs` (appends `--ignore-table=<db>.<table>`). -/
def appendIgnoreTables (dbName : String) : List String → List String → Except String (List String)
  | [], args => .ok args
  | t :: ts, args =>
    match validation.ValidateTableName t with
    | .error e => .error e
    | .ok _ => appendIgnoreTables dbName ts (args ++ ["--ignore-table=" ++ dbName ++ "." ++ t])

/-- Embeds `buildMySQLDumpArgs` (mysql driver lines 1301-1353 of the
concatenated validation.go document). -/
def buildMySQLDumpArgs (cfg : database.ConnectionConfig)
    (opts : database.BackupOptions) : Except String (List String) :=
  let args := ["--host=" ++ cfg.host, "--port=" ++ (⟨intDecStr cfg.port⟩ : String),
    "--user=" ++ cfg.username, "--single-transaction", "--routines", "--triggers",
    "--events", "--skip-lock-tables"]
  let sel : Except String (List String) :=
    if opts.allDatabases then .ok (args ++ ["--all-databases"])
    else if opts.databases ≠ [] then
      match validateEach validation.ValidateDatabaseName opts.databases with
      | .error e => .error e
      | .ok _ => .ok (args ++ "--databases" :: opts.databases)
    else if opts.database ≠ "" then
      match validation.ValidateDatabaseName opts.database with
      | .error e => .error e
      | .ok _ => .ok (args ++ [opts.database])
    else .ok args
  match sel with
  | .error e => .error e
  | .ok args =>
    match ((if opts.tables ≠ [] ∧ opts.database ≠ "" then
        match validateEach validation.ValidateTableName opts.tables with
        | .error e => .error e
        | .ok _ => .ok (args ++ opts.tables)
      else .ok args) : Except String (List String)) with
    | .error e => .error e
    | .ok args => appendIgnoreTables opts.database opts.excludeTables args

/-- Embeds the argv composition of `MySQLDriver.Restore` (lines
1091-1163): the database name is validated before the `mysql` argv is
composed.  File-existence checks and subprocess execution are I/O and
not modelled; the result is the composed argv. -/
def Restore (cfg : database.ConnectionConfig)
    (opts : database.RestoreOptions) : Except String (List String) :=
  match (if opts.database ≠ "" then validation.ValidateDatabaseName opts.database
    else .ok ()) with
  | .error e => .error e
  | .ok _ =>
    let args := ["--host=" ++ cfg.host, "--port=" ++ (⟨intDecStr cfg.port⟩ : String),
      "--user=" ++ cfg.username]
    .ok (if opts.database ≠ "" then args ++ [opts.database] else args)

/-- Embeds the argv composition of `MySQLDriver.StreamRestore` (lines
1166-1182): the database name is appended with no validation call. -/
def StreamRestoreArgs (cfg : database.ConnectionConfig)
    (opts : database.RestoreOptions) : List String :=
  let args := ["--host=" ++ cfg.host, "--port=" ++ (⟨intDecStr cfg.port⟩ : String),
    "--user=" ++ cfg.username]
  if opts.database ≠ "" then args ++ [opts.database] else args

end mysql

namespace postgres

/-- Validation-and-append loop for table flags (`-t` / `-T`) in the
pg_dump and pg_restore builders. -/
def appendTables (flag : String) : List String → List String → Except String (List String)
  | [], args => .ok args
  | t :: ts, args =>
    match validation.ValidateTableName t with
    | .error e => .error e
    | .ok _ => appendTables flag ts (args ++ [flag, t])

/-- Embeds `buildPgDumpArgs` (postgres driver lines 745-795 of the
concatenated validation.go document). -/
def buildPgDumpArgs (cfg : database.ConnectionConfig)
    (opts : database.BackupOptions) : Except String (List String) :=
  let args := ["-h", cfg.host, "-p", (⟨intDecStr cfg.port⟩ : String), "-U", cfg.username,
    "-F", "c", "-v", "--no-owner", "--no-acl"]
  let args := if opts.parallel > 1 then args ++ ["-j", (⟨intDecStr opts.parallel⟩ : String)] else args
  let args := if opts.consistentBackup then args ++ ["--serializable-deferrable"] else args
  match appendTables "-t" opts.tables args with
  | .error e => .error e
  | .ok args =>
    match appendTables "-T" opts.excludeTables args with
    | .error e => .error e
    | .ok args =>
      match (if opts.database ≠ "" then validation.ValidateDatabaseName opts.database
        else .ok ()) with
      | .error e => .error e
      | .ok _ => .ok (if opts.database ≠ "" then args ++ [opts.database] else args)

/-- Embeds `buildRestoreArgs` (postgres driver lines 798-837). -/
def buildRestoreArgs (cfg : database.ConnectionConfig)
    (opts : database.RestoreOptions) : Except String (List String) :=
  match (if opts.database ≠ "" then validation.ValidateDatabaseName opts.database
    else .ok ()) with
  | .error e => .error e
  | .ok _ =>
    let args := ["-h", cfg.host, "-p", (⟨intDecStr cfg.port⟩ : String), "-U", cfg.username,
      "-d", opts.database, "-v", "--no-owner", "--no-acl"]
    let args := if opts.parallel > 1 then args ++ ["-j", (⟨intDecStr opts.parallel⟩ : String)] else args
    let args := if opts.dropExisting then args ++ ["--clean"] else args
    match appendTables "-t" opts.tables args with
    | .error e => .error e
    | .ok args => .ok (args ++ [opts.sourceBackup])

/-- Embeds `buildPsqlArgs` (postgres driver lines 840-856). -/
def buildPsqlArgs (cfg : database.ConnectionConfig)
    (opts : database.RestoreOptions) : Except String (List String) :=
  match (if opts.database ≠ "" then validation.ValidateDatabaseName opts.database
    else .ok ()) with
  | .error e => .error e
  | .ok _ =>
    .ok ["-h", cfg.host, "-p", (⟨intDecStr cfg.port⟩ : String), "-U", cfg.username,
      "-d", opts.database]

end postgres

/-- Consume exactly `n` characters satisfying `p`; models a bounded
repetition regex atom such as `\d{4}` or `[a-f0-9]{8}`. -/
def takeCount : Nat → (Char → Bool) → List Char → Option (List Char)
  | 0, _, l => some l
  | _ + 1, _, [] => none
  | n + 1, p, c :: cs => if p c then takeCount n p cs else none

/-- Consume an exact literal; models a literal regex atom. -/
def dropLit : List Char → List Char → Option (List Char)
  | [], l => some l
  | _ :: _, [] => none
  | p :: ps, c :: cs => if c = p then dropLit ps cs else none

namespace validation

/-- The regex atom `\d`. -/
def isDigitCh (c : Char) : Bool := '0' ≤ c && c ≤ '9'

/-- The regex class `[a-f0-9]`. -/
def isHexLower (c : Char) : Bool := isDigitCh c || ('a' ≤ c && c ≤ 'f')

/-- Matcher for `BackupIDRegex`, the anchored regexp
`^backup-\d{4}-\d{2}-\d{2}-\d{2}-\d{2}-\d{2}-[a-f0-9]{8}$`
(validation.go line 18), atom by atom; anchoring requires the remainder
to be empty. -/
def backupIDTail (l : List Char) : Option Unit := do
  let r ← dropLit ['b', 'a', 'c', 'k', 'u', 'p', '-'] l
  let r ← takeCount 4 isDigitCh r
  let r ← dropLit ['-'] r
  let r ← takeCount 2 isDigitCh r
  let r ← dropLit ['-'] r
  let r ← takeCount 2 isDigitCh r
  let r ← dropLit ['-'] r
  let r ← takeCount 2 isDigitCh r
  let r ← dropLit ['-'] r
  let r ← takeCount 2 isDigitCh r
  let r ← dropLit ['-'] r
  let r ← takeCount 2 isDigitCh r
  let r ← dropLit ['-'] r
  let r ← takeCount 8 isHexLower r
  if r = [] then some () else none

/-- Model of `BackupIDRegex.MatchString`. -/
def backupIDMatch (s : String) : Bool := (backupIDTail s.data).isSome

/-- Embeds `validation.ValidateBackupID` (validation.go lines 76-96). -/
def ValidateBackupID (id : String) : Except String Unit :=
  if id = "" then .error "backup ID cannot be empty"
  else if goContains id ".." then .error "backup ID cannot contain \x27..\x27"
  else if goContains id "/" || goContains id "\\" then
    .error "backup ID cannot contain path separators"
  else if !backupIDMatch id then .error "backup ID has invalid format"
  else .ok ()

end validation

namespace utils

/-- The observable parts of a `time.Time` used by `GenerateBackupID`:
the wall-clock fields that the layout `20060102-150405` renders, and the
`UnixNano` value. -/
structure GoTime where
  year : Nat
  month : Nat
  day : Nat
  hour : Nat
  minute : Nat
  second : Nat
  unixNano : Nat

/-- Embeds `utils.GenerateBackupID`:
`fmt.Sprintf("backup-%s-%d", time.Now().Format("20060102-150405"),
time.Now().UnixNano()%1000000)`.  The layout renders the year
zero-padded to four digits and month, day, hour, minute, second
zero-padded to two. -/
def GenerateBackupID (t : GoTime) : String :=
  ⟨['b', 'a', 'c', 'k', 'u', 'p', '-'] ++
    (padNat 4 t.year ++ padNat 2 t.month ++ padNat 2 t.day ++
      '-' :: (padNat 2 t.hour ++ padNat 2 t.minute ++ padNat 2 t.second) ++
      '-' :: decDigitsL (t.unixNano % 1000000))⟩

end utils

namespace filepath

/-- Split a rune sequence at `/` separators; models the element scan of
Go `path/filepath` on unix. -/
def splitSlashAux : List Char → List Char → List (List Char)
  | [], cur => [cur.reverse]
  | '/' :: rest, cur => cur.reverse :: splitSlashAux rest []
  | c :: rest, cur => splitSlashAux rest (c :: cur)

/-- The non-empty path elements of a rune sequence (empty elements —
leading, trailing or doubled separators — are skipped, as Go Clean
does). -/
def compsL (l : List Char) : List (List Char) :=
  (splitSlashAux l []).filter (fun c => c ≠ [])

/-- Join path elements with `/` separators. -/
def joinCompsL : List (List Char) → List Char
  | [] => []
  | [c] => c
  | c :: cs => c ++ '/' :: joinCompsL cs

/-- The element loop of Go `filepath.Clean` (unix): `.` is dropped,
`..` pops the last real element (in a rooted path a `..` at the root is
dropped; in a relative path it is kept when nothing real remains),
anything else is pushed.  `acc` is the output stack, most recent first. -/
def cleanStack (rooted : Bool) : List (List Char) → List (List Char) → List (List Char)
  | [], acc => acc.reverse
  | c :: cs, acc =>
    if c = ['.'] then cleanStack rooted cs acc
    else if c = ['.', '.'] then
      match acc with
      | [] => if rooted then cleanStack rooted cs [] else cleanStack rooted cs [['.', '.']]
      | a :: rest =>
        if a = ['.', '.'] then cleanStack rooted cs (c :: a :: rest)
        else cleanStack rooted cs rest
    else cleanStack rooted cs (c :: acc)

/-- Model of Go `filepath.Clean` (unix) on rune sequences. -/
def cleanL (p : List Char) : List Char :=
  if p = [] then ['.']
  else if leads ['/'] p then '/' :: joinCompsL (cleanStack true (compsL p) [])
  else if cleanStack false (compsL p) [] = [] then ['.']
  else joinCompsL (cleanStack false (compsL p) [])

/-- Model of Go `filepath.Clean` (unix). -/
def Clean (p : String) : String := ⟨cleanL p.data⟩

/-- Model of Go `filepath.IsAbs` (unix). -/
def IsAbs (p : String) : Bool := goStartsWith p "/"

/-- Model of Go `filepath.Abs` with the working directory `cwd` made
explicit (`os.Getwd` failure, the only error source, is not modelled):
an absolute path is cleaned, a relative one is joined onto `cwd`. -/
def Abs (cwd p : String) : String :=
  if IsAbs p then Clean p else Clean (cwd ++ "/" ++ p)

/-- Strip the longest common element prefix of two element lists; models
the first-differing-element scan of Go `filepath.Rel`. -/
def stripCommon : List (List Char) → List (List Char) → List (List Char) × List (List Char)
  | b :: bs, t :: ts => if b = t then stripCommon bs ts else (b :: bs, t :: ts)
  | bs, ts => (bs, ts)

/-- Result assembly of Go `filepath.Rel` after the common prefix is
stripped: error when the next base element is `..`; otherwise one `..`
per remaining base element followed by the remaining target elements. -/
def relAfterStrip (pr : List (List Char) × List (List Char)) : Except String (List Char) :=
  if pr.1.head? = some ['.', '.'] then
    .error "Rel: can\x27t make targ relative to base"
  else if pr.1 ≠ [] then
    .ok (joinCompsL (List.replicate pr.1.length ['.', '.'] ++ pr.2))
  else .ok (joinCompsL pr.2)

/-- Slashedness agreement check of Go `filepath.Rel`, then the element
comparison. -/
def relSlashed (base2 targ1 : List Char) : Except String (List Char) :=
  if (leads ['/'] base2) ≠ (leads ['/'] targ1) then
    .error "Rel: can\x27t make targ relative to base"
  else relAfterStrip (stripCommon (compsL base2) (compsL targ1))

/-- Model of Go `filepath.Rel` (unix; volume names are empty): both
paths are cleaned, equal paths yield `.`, a base of `.` becomes empty. -/
def relL (b t : List Char) : Except String (List Char) :=
  if cleanL t = cleanL b then .ok ['.']
  else relSlashed (if cleanL b = ['.'] then [] else cleanL b) (cleanL t)

/-- Model of Go `filepath.Rel` on strings. -/
def Rel (b t : String) : Except String String :=
  (relL b.data t.data).map (fun l => (⟨l⟩ : String))

/-- Embeds `validation.SanitizePath` (validation.go lines 98-123) with
the working directory made explicit: cleans the path, and when a base
directory is given rejects any path whose absolute form is not within
the absolute base (`filepath.Rel` fails or yields a `..`-prefixed
relative path). -/
def SanitizePath (cwd path baseDir : String) : Except String String :=
  if baseDir = "" then .ok (Clean path)
  else
    match Rel (Abs cwd baseDir) (Abs cwd (Clean path)) with
    | .error _ => .error ("path traversal detected: path must be within " ++ baseDir)
    | .ok relPath =>
      if goStartsWith relPath ".." then
        .error ("path traversal detected: path must be within " ++ baseDir)
      else .ok (Clean path)

/-- Canonical-form containment: the path elements of the canonical
(cleaned) form of `b` are a leading segment of those of the canonical
form of `t`. -/
def isWithin (t b : String) : Bool :=
  leads (compsL (cleanL b.data)) (compsL (cleanL t.data))

end filepath

theorem str_eq_iff_data (s t : String) : s = t ↔ s.data = t.data := by
  constructor
  · intro h; exact congrArg String.data h
  · intro h; cases s; cases t; exact congrArg String.mk h

theorem goLen_pos_iff (s : String) : 1 ≤ goLen s ↔ s ≠ "" := by
  constructor
  · intro h he
    subst he
    simp [goLen, utf8Len] at h
  · intro h
    have hd : s.data ≠ [] := by
      intro hnil
      exact h ((str_eq_iff_data s "").mpr (by simpa using hnil))
    cases hs : s.data with
    | nil => exact absurd hs hd
    | cons c cs =>
      have : 0 < c.utf8Size := Char.utf8Size_pos c
      simp [goLen, hs, utf8Len]
      omega

theorem dbName_ok_iff (s : String) :
    okB (validation.ValidateDatabaseName s) = true ↔
      (1 ≤ goLen s ∧ goLen s ≤ 64 ∧ goStartsWith s "-" = false ∧
        goStartsWith s "." = false ∧ s.data.all validation.isDbNameChar = true) := by
  unfold validation.ValidateDatabaseName
  by_cases h0 : s = ""
  · subst h0
    simp [okB, goLen, utf8Len]
  · rw [if_neg h0]
    have h1 : 1 ≤ goLen s := (goLen_pos_iff s).mpr h0
    by_cases h2 : goLen s > 64
    · rw [if_pos h2]
      simp [okB]
      omega
    · rw [if_neg h2]
      by_cases h3 : goStartsWith s "-" = true
      · rw [if_pos h3]
        simp [okB, h3]
      · rw [if_neg h3]
        by_cases h4 : goStartsWith s "." = true
        · rw [if_pos h4]
          simp [okB, h4]
        · rw [if_neg h4]
          have hne : ¬s.data.isEmpty := by
            intro he
            exact h0 ((str_eq_iff_data s "").mpr (by simpa using List.isEmpty_iff.mp he))
          by_cases h5 : s.data.all validation.isDbNameChar = true
          · rw [if_neg (by simp [validation.matchClassPlus, hne, h5])]
            simp [okB, h1, h5]
            refine ⟨by omega, by simpa using h3, by simpa using h4⟩
          · rw [if_pos (by simp [validation.matchClassPlus, h5])]
            simp [okB, h5]

theorem tableName_ok_iff (s : String) :
    okB (validation.ValidateTableName s) = true ↔
      (1 ≤ goLen s ∧ goLen s ≤ 128 ∧ goStartsWith s "-" = false ∧
        goStartsWith s "." = false ∧ s.data.all validation.isTableNameChar = true) := by
  unfold validation.ValidateTableName
  by_cases h0 : s = ""
  · subst h0
    simp [okB, goLen, utf8Len]
  · rw [if_neg h0]
    have h1 : 1 ≤ goLen s := (goLen_pos_iff s).mpr h0
    by_cases h2 : goLen s > 128
    · rw [if_pos h2]
      simp [okB]
      omega
    · rw [if_neg h2]
      by_cases h3 : goStartsWith s "-" = true
      · rw [if_pos h3]
        simp [okB, h3]
      · rw [if_neg h3]
        by_cases h4 : goStartsWith s "." = true
        · rw [if_pos h4]
          simp [okB, h4]
        · rw [if_neg h4]
          have hne : ¬s.data.isEmpty := by
            intro he
            exact h0 ((str_eq_iff_data s "").mpr (by simpa using List.isEmpty_iff.mp he))
          by_cases h5 : s.data.all validation.isTableNameChar = true
          · rw [if_neg (by simp [validation.matchClassPlus, hne, h5])]
            simp [okB, h1, h5]
            refine ⟨by omega, by simpa using h3, by simpa using h4⟩
          · rw [if_pos (by simp [validation.matchClassPlus, h5])]
            simp [okB, h5]

theorem dbChar_imp_tableChar (c : Char) (h : validation.isDbNameChar c = true) :
    validation.isTableNameChar c = true := by
  simp [validation.isDbNameChar] at h
  simp [validation.isTableNameChar]
  tauto

/-- Claim C5: `ValidateDatabaseName(s)` succeeds exactly when
`1 ≤ len(s) ≤ 64`, `s` does not start with a dash or a dot, and every
character of `s` is in the class `[A-Za-z0-9_-]`. -/
theorem validateDatabaseName_accepts_iff (s : String) :
    okB (validation.ValidateDatabaseName s) = true ↔
      (1 ≤ goLen s ∧ goLen s ≤ 64 ∧ goStartsWith s "-" = false ∧
        goStartsWith s "." = false ∧ s.data.all validation.isDbNameChar = true) :=
  dbName_ok_iff s

/-- Claim C9: every string accepted by `ValidateDatabaseName` is also
accepted by `ValidateTableName`: the database-name policy (alphabet
`[A-Za-z0-9_-]`, length at most 64, no leading dash or dot) is strictly
stronger than the table-name policy (alphabet `[A-Za-z0-9_.-]`, length
at most 128, same prefix rejections). -/
theorem databaseName_policy_subsumed_by_tableName (s : String)
    (h : okB (validation.ValidateDatabaseName s) = true) :
    okB (validation.ValidateTableName s) = true := by
  obtain ⟨h1, h2, h3, h4, h5⟩ := (dbName_ok_iff s).mp h
  refine (tableName_ok_iff s).mpr ⟨h1, by omega, h3, h4, ?_⟩
  rw [List.all_eq_true] at h5 ⊢
  intro c hc
  exact dbChar_imp_tableChar c (h5 c hc)

theorem databaseName_policy_subsumed_by_tableName_witness :
    okB (validation.ValidateDatabaseName "my-db_1") = true ∧
      okB (validation.ValidateTableName "my-db_1") = true :=
  ⟨by decide, databaseName_policy_subsumed_by_tableName "my-db_1" (by decide)⟩

/-- Claim C6 counterexample: zstd level 10 lies in the spec's valid
range 1..22, yet `ValidateCompressionLevel 10` fails. -/
theorem compressionLevel_ten_rejected :
    ((1 : Int) ≤ 10 ∧ (10 : Int) ≤ 22) ∧
      okB (validation.ValidateCompressionLevel 10) = false :=
  ⟨by decide, by decide⟩

/-- Claim C6 (amended): `ValidateCompressionLevel(level)` succeeds
exactly for `-1 ≤ level ≤ 9`; the zstd levels 10..22 of the spec's
table are rejected. -/
theorem validateCompressionLevel_accepts_iff (level : Int) :
    okB (validation.ValidateCompressionLevel level) = true ↔ (-1 ≤ level ∧ level ≤ 9) := by
  unfold validation.ValidateCompressionLevel
  by_cases h : level < -1 ∨ level > 9
  · rw [if_pos h]
    simp [okB]
    omega
  · rw [if_neg h]
    simp [okB]
    omega

/-- Claim C8: `IsRetryable(err)` returns true exactly when the
structured `BackupError` that `errors.As` resolves in the unwrap chain
of `err` has type NETWORK or STORAGE; for every other error (validation,
database, compression, encryption, plain untyped errors, nil) it
returns false. -/
theorem isRetryable_iff_network_or_storage :
    errs.IsRetryable none = false ∧
      ∀ e : errs.GoErr,
        (errs.IsRetryable (some e) = true ↔
          ∃ t m c, errs.errorsAsBackupError e = some (t, m, c) ∧
            (t = errs.ErrorTypeNetwork ∨ t = errs.ErrorTypeStorage)) := by
  refine ⟨rfl, fun e => ?_⟩
  cases h : errs.errorsAsBackupError e with
  | none => simp [errs.IsRetryable, h]
  | some v =>
    obtain ⟨t, m, c⟩ := v
    simp [errs.IsRetryable, h]

/-- Claim C10: error wrapping is nil-preserving: for every error type
and message, `Wrap(nil, t, m)` returns nil. -/
theorem wrap_nil_returns_nil :
    ∀ (t : errs.ErrorType) (m : String), errs.Wrap none t m = none :=
  fun _ _ => rfl

/-- Claim C7 counterexample: at a concrete input the document engine's
`StreamBackup`/`StreamRestore` return a DATABASE-typed `BackupError`
whose message says "not implemented" — not an `Unsupported`-kind error
(no such kind exists among the program's error types). -/
theorem mongo_stream_error_kind_database :
    (mongodb.StreamBackup ⟨"", [], false, [], [], false, 0, ""⟩).err =
      some (.backup errs.ErrorTypeDatabase
        "MongoDB streaming backup not implemented - use file-based backup" none) ∧
      (mongodb.StreamRestore ⟨"", "", false, 0, none, []⟩).err =
        some (.backup errs.ErrorTypeDatabase
          "MongoDB streaming restore not implemented - use file-based restore" none) ∧
      errs.ErrorTypeDatabase = "DATABASE" ∧ errs.ErrorTypeDatabase ≠ "UNSUPPORTED" :=
  ⟨rfl, rfl, rfl, by decide⟩

/-- Claim C7 (amended): for every input, the document-engine streaming
backup and streaming restore perform no work (no subprocess, nothing
written to the writer) and return a non-nil DATABASE-typed error whose
message states the operation is not implemented. -/
theorem mongo_stream_unsupported_behavior :
    ∀ (bo : database.BackupOptions) (ro : database.RestoreOptions),
      mongodb.StreamBackup bo =
        ⟨[], [], some (.backup errs.ErrorTypeDatabase
          "MongoDB streaming backup not implemented - use file-based backup" none)⟩ ∧
      mongodb.StreamRestore ro =
        ⟨[], [], some (.backup errs.ErrorTypeDatabase
          "MongoDB streaming restore not implemented - use file-based restore" none)⟩ :=
  fun _ _ => ⟨rfl, rfl⟩

/-- Claim C2 counterexample: two MongoDB connection configurations that
differ only in the password yield different mongodump argv lists, and
the configured password itself appears in the argv. -/
theorem mongodump_argv_depends_on_password :
    mongodb.buildMongoDumpArgs ⟨"dbhost", 27017, "admin", "pw1", ""⟩
        ⟨"", [], false, [], [], false, 0, "/tmp/out"⟩ =
      .ok ["--host", "dbhost", "--port", "27017", "--out", "/tmp/out", "--gzip",
        "--username", "admin", "--password", "pw1"] ∧
    mongodb.buildMongoDumpArgs ⟨"dbhost", 27017, "admin", "pw2", ""⟩
        ⟨"", [], false, [], [], false, 0, "/tmp/out"⟩ =
      .ok ["--host", "dbhost", "--port", "27017", "--out", "/tmp/out", "--gzip",
        "--username", "admin", "--password", "pw2"] ∧
    "pw1" ∈ ["--host", "dbhost", "--port", "27017", "--out", "/tmp/out", "--gzip",
      "--username", "admin", "--password", "pw1"] ∧
    (["--host", "dbhost", "--port", "27017", "--out", "/tmp/out", "--gzip",
        "--username", "admin", "--password", "pw1"] ≠
      ["--host", "dbhost", "--port", "27017", "--out", "/tmp/out", "--gzip",
        "--username", "admin", "--password", "pw2"]) :=
  ⟨rfl, rfl, by decide, by decide⟩

/-- Claim C2 (amended): the MySQL and PostgreSQL adapters never place
the configured password in a dump/restore argv — two configurations
differing only in the password yield identical argv lists — but the
MongoDB adapter passes a non-empty password to mongodump and
mongorestore as a `--password` argv pair. -/
theorem credentials_argv_policy :
    (∀ (h : String) (p : Int) (u db pw pw' : String) (opts : database.BackupOptions),
      mysql.buildMySQLDumpArgs ⟨h, p, u, pw, db⟩ opts =
        mysql.buildMySQLDumpArgs ⟨h, p, u, pw', db⟩ opts) ∧
    (∀ (h : String) (p : Int) (u db pw pw' : String) (opts : database.RestoreOptions),
      mysql.Restore ⟨h, p, u, pw, db⟩ opts = mysql.Restore ⟨h, p, u, pw', db⟩ opts) ∧
    (∀ (h : String) (p : Int) (u db pw pw' : String) (opts : database.RestoreOptions),
      mysql.StreamRestoreArgs ⟨h, p, u, pw, db⟩ opts =
        mysql.StreamRestoreArgs ⟨h, p, u, pw', db⟩ opts) ∧
    (∀ (h : String) (p : Int) (u db pw pw' : String) (opts : database.BackupOptions),
      postgres.buildPgDumpArgs ⟨h, p, u, pw, db⟩ opts =
        postgres.buildPgDumpArgs ⟨h, p, u, pw', db⟩ opts) ∧
    (∀ (h : String) (p : Int) (u db pw pw' : String) (opts : database.RestoreOptions),
      postgres.buildRestoreArgs ⟨h, p, u, pw, db⟩ opts =
        postgres.buildRestoreArgs ⟨h, p, u, pw', db⟩ opts) ∧
    (∀ (h : String) (p : Int) (u db pw pw' : String) (opts : database.RestoreOptions),
      postgres.buildPsqlArgs ⟨h, p, u, pw, db⟩ opts =
        postgres.buildPsqlArgs ⟨h, p, u, pw', db⟩ opts) ∧
    (∀ cfg : database.ConnectionConfig, cfg.password ≠ "" →
      (∃ args, mongodb.buildMongoDumpArgs cfg ⟨"", [], false, [], [], false, 0, "/tmp/dump"⟩ =
          .ok args ∧ cfg.password ∈ args) ∧
      (∃ args, mongodb.buildMongoRestoreArgs cfg ⟨"", "/tmp/backup", false, 0, none, []⟩ =
          .ok args ∧ cfg.password ∈ args)) := by
  refine ⟨fun _ _ _ _ _ _ _ => rfl, fun _ _ _ _ _ _ _ => rfl, fun _ _ _ _ _ _ _ => rfl,
    fun _ _ _ _ _ _ _ => rfl, fun _ _ _ _ _ _ _ => rfl, fun _ _ _ _ _ _ _ => rfl,
    fun cfg hp => ⟨?_, ?_⟩⟩
  · by_cases hu : cfg.username = ""
    · refine ⟨["--host", cfg.host, "--port", (⟨intDecStr cfg.port⟩ : String), "--out",
        "/tmp/dump", "--gzip", "--password", cfg.password], ?_, by simp⟩
      simp [mongodb.buildMongoDumpArgs, hu, hp, mongodb.appendCollections]
    · refine ⟨["--host", cfg.host, "--port", (⟨intDecStr cfg.port⟩ : String), "--out",
        "/tmp/dump", "--gzip", "--username", cfg.username, "--password", cfg.password],
        ?_, by simp⟩
      simp [mongodb.buildMongoDumpArgs, hu, hp, mongodb.appendCollections]
  · by_cases hu : cfg.username = ""
    · refine ⟨["--host", cfg.host, "--port", (⟨intDecStr cfg.port⟩ : String), "--gzip",
        "--password", cfg.password, "/tmp/backup"], ?_, by simp⟩
      simp [mongodb.buildMongoRestoreArgs, hu, hp]
    · refine ⟨["--host", cfg.host, "--port", (⟨intDecStr cfg.port⟩ : String), "--gzip",
        "--username", cfg.username, "--password", cfg.password, "/tmp/backup"], ?_, by simp⟩
      simp [mongodb.buildMongoRestoreArgs, hu, hp]

theorem credentials_argv_policy_witness :
    (∃ args, mongodb.buildMongoDumpArgs ⟨"dbhost", 27017, "admin", "s3cret", ""⟩
        ⟨"", [], false, [], [], false, 0, "/tmp/dump"⟩ = .ok args ∧ "s3cret" ∈ args) ∧
    (∃ args, mongodb.buildMongoRestoreArgs ⟨"dbhost", 27017, "admin", "s3cret", ""⟩
        ⟨"", "/tmp/backup", false, 0, none, []⟩ = .ok args ∧ "s3cret" ∈ args) :=
  credentials_argv_policy.2.2.2.2.2.2 ⟨"dbhost", 27017, "admin", "s3cret", ""⟩ (by decide)

/-- Claim C3 (the code violates it): `MySQLDriver.StreamRestore`
composes the mysql argv and places the database name in it without any
`ValidateDatabaseName` call, so an invalid name reaches the subprocess
argv; the sibling `Restore` rejects the same name before composing the
command. -/
theorem mysql_streamrestore_unvalidated_argv :
    okB (validation.ValidateDatabaseName "bad;name") = false ∧
    mysql.StreamRestoreArgs ⟨"dbhost", 3306, "root", "pw", ""⟩
        ⟨"bad;name", "/tmp/b.sql", false, 0, none, []⟩ =
      ["--host=dbhost", "--port=3306", "--user=root", "bad;name"] ∧
    "bad;name" ∈ mysql.StreamRestoreArgs ⟨"dbhost", 3306, "root", "pw", ""⟩
        ⟨"bad;name", "/tmp/b.sql", false, 0, none, []⟩ ∧
    okB (mysql.Restore ⟨"dbhost", 3306, "root", "pw", ""⟩
        ⟨"bad;name", "/tmp/b.sql", false, 0, none, []⟩) = false :=
  ⟨by decide, rfl, by decide, by decide⟩

theorem digitChar_digit (m : Nat) : validation.isDigitCh (digitChar m) = true := by
  unfold digitChar
  repeat' split
  all_goals decide

theorem decAux_digits (fuel : Nat) : ∀ (n : Nat) (acc : List Char),
    (∀ c ∈ acc, validation.isDigitCh c = true) →
      ∀ c ∈ decDigitsAux fuel n acc, validation.isDigitCh c = true := by
  induction fuel with
  | zero => intro n acc hacc; simpa [decDigitsAux] using hacc
  | succ fuel ih =>
    intro n acc hacc c hc
    unfold decDigitsAux at hc
    by_cases h : n < 10
    · rw [if_pos h] at hc
      rcases List.mem_cons.mp hc with h1 | h1
      · exact h1 ▸ digitChar_digit _
      · exact hacc c h1
    · rw [if_neg h] at hc
      refine ih _ _ ?_ c hc
      intro c' hc'
      rcases List.mem_cons.mp hc' with h1 | h1
      · exact h1 ▸ digitChar_digit _
      · exact hacc c' h1

theorem decDigitsL_digits (n : Nat) : ∀ c ∈ decDigitsL n, validation.isDigitCh c = true :=
  decAux_digits _ _ _ (by simp)

theorem decAux_len (fuel : Nat) : ∀ (n : Nat) (acc : List Char), 1 ≤ fuel →
    acc.length + 1 ≤ (decDigitsAux fuel n acc).length := by
  induction fuel with
  | zero => intro n acc h; omega
  | succ fuel ih =>
    intro n acc _
    unfold decDigitsAux
    by_cases h : n < 10
    · rw [if_pos h]; simp
    · rw [if_neg h]
      rcases Nat.eq_zero_or_pos fuel with hz | hpos
      · subst hz; simp [decDigitsAux]
      · have := ih (n / 10) (digitChar (n % 10) :: acc) hpos
        simp at this
        omega

theorem decDigitsL_len (n : Nat) : 1 ≤ (decDigitsL n).length := by
  have := decAux_len (n + 1) n [] (by omega)
  simpa [decDigitsL] using this

theorem padNat_digits (w n : Nat) : ∀ c ∈ padNat w n, validation.isDigitCh c = true := by
  intro c hc
  unfold padNat at hc
  rcases List.mem_append.mp hc with h | h
  · rw [List.eq_of_mem_replicate h]; decide
  · exact decDigitsL_digits n c h

theorem padNat_len (w n : Nat) : w ≤ (padNat w n).length := by
  unfold padNat
  simp
  omega

theorem padNat_ne_nil (w n : Nat) : padNat w n ≠ [] := by
  intro h
  have := decDigitsL_len n
  unfold padNat at h
  rcases List.append_eq_nil.mp h with ⟨_, h2⟩
  rw [h2] at this
  simp at this

theorem dropLit_self : ∀ (pre l : List Char), dropLit pre (pre ++ l) = some l := by
  intro pre
  induction pre with
  | nil => intro l; rfl
  | cons p ps ih => intro l; simpa [dropLit] using ih l

theorem takeCount_eat (p : Char → Bool) : ∀ (n : Nat) (ds rest : List Char),
    (∀ c ∈ ds, p c = true) → n ≤ ds.length →
      takeCount n p (ds ++ rest) = some (ds.drop n ++ rest) := by
  intro n
  induction n with
  | zero => intro ds rest _ _; simp [takeCount]
  | succ n ih =>
    intro ds rest hall hlen
    cases ds with
    | nil => simp at hlen
    | cons d ds' =>
      have hd : p d = true := hall d (List.mem_cons_self _ _)
      simp only [List.cons_append, takeCount, hd, if_pos]
      have := ih ds' rest (fun c hc => hall c (List.mem_cons_of_mem _ hc)) (by simpa using hlen)
      simpa [List.drop] using this

theorem dropLit_dash_of_digit (c : Char) (cs : List Char)
    (h : validation.isDigitCh c = true) : dropLit ['-'] (c :: cs) = none := by
  unfold dropLit
  rw [if_neg]
  intro he
  subst he
  simp [validation.isDigitCh] at h

theorem leads_head_eq {c d : Char} {sub ds : List Char}
    (h : leads (c :: sub) (d :: ds) = true) : c = d := by
  unfold leads at h
  by_cases he : c = d
  · exact he
  · rw [if_neg he] at h
    exact absurd h (by simp)

theorem containsSeq_head_mem (c : Char) (sub : List Char) :
    ∀ l : List Char, containsSeq (c :: sub) l = true → c ∈ l := by
  intro l
  induction l with
  | nil => intro h; simp [containsSeq, leads] at h
  | cons d ds ih =>
    intro h
    unfold containsSeq at h
    rcases Bool.or_eq_true_iff.mp h with h1 | h1
    · exact (leads_head_eq h1) ▸ List.mem_cons_self _ _
    · exact List.mem_cons_of_mem _ (ih h1)

theorem generated_chars (t : utils.GoTime) :
    ∀ c ∈ (utils.GenerateBackupID t).data,
      c ∈ ['b', 'a', 'c', 'k', 'u', 'p', '-'] ∨ validation.isDigitCh c = true := by
  have hL : (utils.GenerateBackupID t).data =
      ['b', 'a', 'c', 'k', 'u', 'p', '-'] ++ (padNat 4 t.year ++ (padNat 2 t.month ++
        (padNat 2 t.day ++ (['-'] ++ (padNat 2 t.hour ++ (padNat 2 t.minute ++
          (padNat 2 t.second ++ (['-'] ++ decDigitsL (t.unixNano % 1000000))))))))) := by
    simp [utils.GenerateBackupID]
  intro c hc
  rw [hL] at hc
  rcases List.mem_append.mp hc with h | h
  · exact Or.inl h
  clear hc
  rcases List.mem_append.mp h with h | h
  · exact Or.inr (padNat_digits _ _ c h)
  rcases List.mem_append.mp h with h | h
  · exact Or.inr (padNat_digits _ _ c h)
  rcases List.mem_append.mp h with h | h
  · exact Or.inr (padNat_digits _ _ c h)
  rcases List.mem_append.mp h with h | h
  · exact Or.inl (by rw [List.mem_singleton.mp h]; decide)
  rcases List.mem_append.mp h with h | h
  · exact Or.inr (padNat_digits _ _ c h)
  rcases List.mem_append.mp h with h | h
  · exact Or.inr (padNat_digits _ _ c h)
  rcases List.mem_append.mp h with h | h
  · exact Or.inr (padNat_digits _ _ c h)
  rcases List.mem_append.mp h with h | h
  · exact Or.inl (by rw [List.mem_singleton.mp h]; decide)
  · exact Or.inr (decDigitsL_digits _ c h)

theorem generated_no_char (t : utils.GoTime) (c : Char)
    (hlit : c ∉ (['b', 'a', 'c', 'k', 'u', 'p', '-'] : List Char))
    (hdig : validation.isDigitCh c = false) :
    c ∉ (utils.GenerateBackupID t).data := by
  intro hc
  rcases generated_chars t c hc with h | h
  · exact hlit h
  · rw [hdig] at h; exact absurd h (by simp)

theorem backupIDMatch_generated_false (t : utils.GoTime) :
    validation.backupIDMatch (utils.GenerateBackupID t) = false := by
  unfold validation.backupIDMatch validation.backupIDTail
  have hdata : (utils.GenerateBackupID t).data =
      ['b', 'a', 'c', 'k', 'u', 'p', '-'] ++
        (padNat 4 t.year ++ (padNat 2 t.month ++ padNat 2 t.day ++
          '-' :: (padNat 2 t.hour ++ padNat 2 t.minute ++ padNat 2 t.second) ++
          '-' :: decDigitsL (t.unixNano % 1000000))) := by
    show _ = ['b', 'a', 'c', 'k', 'u', 'p', '-'] ++ _
    simp [utils.GenerateBackupID]
  rw [hdata, dropLit_self]
  have h4 : takeCount 4 validation.isDigitCh
      (padNat 4 t.year ++ (padNat 2 t.month ++ padNat 2 t.day ++
        '-' :: (padNat 2 t.hour ++ padNat 2 t.minute ++ padNat 2 t.second) ++
        '-' :: decDigitsL (t.unixNano % 1000000))) =
      some ((padNat 4 t.year).drop 4 ++ (padNat 2 t.month ++ padNat 2 t.day ++
        '-' :: (padNat 2 t.hour ++ padNat 2 t.minute ++ padNat 2 t.second) ++
        '-' :: decDigitsL (t.unixNano % 1000000))) :=
    takeCount_eat _ 4 _ _ (padNat_digits 4 t.year) (padNat_len 4 t.year)
  simp only [Option.bind_eq_bind, Option.some_bind, h4]
  have hdash : dropLit ['-'] ((padNat 4 t.year).drop 4 ++ (padNat 2 t.month ++ padNat 2 t.day ++
      '-' :: (padNat 2 t.hour ++ padNat 2 t.minute ++ padNat 2 t.second) ++
      '-' :: decDigitsL (t.unixNano % 1000000))) = none := by
    cases hdrop : (padNat 4 t.year).drop 4 with
    | nil =>
      cases hmo : padNat 2 t.month with
      | nil => exact absurd hmo (padNat_ne_nil 2 t.month)
      | cons c cs =>
        have hcdig : validation.isDigitCh c = true :=
          padNat_digits 2 t.month c (by rw [hmo]; exact List.mem_cons_self _ _)
        simp only [hmo, List.nil_append, List.cons_append, List.append_assoc]
        exact dropLit_dash_of_digit c _ hcdig
    | cons c cs =>
      have hcmem : c ∈ padNat 4 t.year :=
        List.drop_subset _ _ (by rw [hdrop]; exact List.mem_cons_self _ _)
      have hcdig : validation.isDigitCh c = true := padNat_digits 4 t.year c hcmem
      simp only [List.cons_append]
      exact dropLit_dash_of_digit c _ hcdig
  rw [hdash]
  rfl

/-- Claim C1 counterexample: at a concrete instant, the string returned
by `GenerateBackupID` is rejected by `ValidateBackupID`. -/
theorem generateBackupID_rejected_at_instance :
    validation.ValidateBackupID (utils.GenerateBackupID ⟨2025, 1, 2, 3, 4, 5, 123456789⟩) =
      .error "backup ID has invalid format" := rfl

/-- Claim C1 (amended): the two ID formats never agree: for every
instant, `GenerateBackupID` returns
`backup-YYYYMMDD-HHMMSS-<decimal / 1e6 remainder>`, which
`ValidateBackupID` always rejects as having an invalid format (the
validator expects `backup-YYYY-MM-DD-HH-MM-SS-<8 lowercase hex>`). -/
theorem generateBackupID_never_validates (t : utils.GoTime) :
    validation.ValidateBackupID (utils.GenerateBackupID t) =
      .error "backup ID has invalid format" := by
  unfold validation.ValidateBackupID
  rw [if_neg (fun h : utils.GenerateBackupID t = "" => by
    have := congrArg String.data h
    simp [utils.GenerateBackupID] at this)]
  rw [if_neg (fun h : goContains (utils.GenerateBackupID t) ".." = true => by
    have hmem := containsSeq_head_mem '.' ['.'] _ h
    exact generated_no_char t '.' (by decide) (by decide) hmem)]
  rw [if_neg (fun h : (goContains (utils.GenerateBackupID t) "/" ||
      goContains (utils.GenerateBackupID t) "\\") = true => by
    rcases Bool.or_eq_true_iff.mp h with h1 | h1
    · exact generated_no_char t '/' (by decide) (by decide)
        (containsSeq_head_mem '/' [] _ h1)
    · exact generated_no_char t '\\' (by decide) (by decide)
        (containsSeq_head_mem '\\' [] _ h1))]
  rw [if_pos (by rw [backupIDMatch_generated_false]; rfl)]

theorem leads_refl {α : Type} [DecidableEq α] (l : List α) : leads l l = true := by
  induction l with
  | nil => rfl
  | cons x xs ih => unfold leads; rw [if_pos rfl]; exact ih

theorem leads_cons_slash (l : List Char) (h : leads ['/'] l = true) :
    ∃ rest, l = '/' :: rest := by
  cases l with
  | nil => exact absurd h (by decide)
  | cons c cs =>
    unfold leads at h
    by_cases he : ('/' : Char) = c
    · exact ⟨cs, by rw [← he]⟩
    · rw [if_neg he] at h
      exact absurd h (by simp)

theorem cleanL_rooted (p : List Char) (hp : leads ['/'] p = true) :
    leads ['/'] (filepath.cleanL p) = true := by
  have hne : p ≠ [] := by
    intro h
    rw [h] at hp
    exact absurd hp (by decide)
  unfold filepath.cleanL
  rw [if_neg hne, if_pos hp]
  simp [leads]

theorem string_append_data (s t : String) : (s ++ t).data = s.data ++ t.data := by
  cases s; cases t; rfl

theorem abs_rooted (cwd p : String) (hc : filepath.IsAbs cwd = true) :
    leads ['/'] (filepath.Abs cwd p).data = true := by
  unfold filepath.Abs
  by_cases h : filepath.IsAbs p = true
  · rw [if_pos h]
    exact cleanL_rooted _ h
  · rw [if_neg h]
    apply cleanL_rooted
    have hdata : (cwd ++ "/" ++ p).data = cwd.data ++ (['/'] ++ p.data) := by
      rw [string_append_data, string_append_data, List.append_assoc]
    rw [hdata]
    obtain ⟨rest, hrest⟩ := leads_cons_slash cwd.data hc
    rw [hrest]
    simp [leads]

theorem stripCommon_fst_nil : ∀ (bs ts : List (List Char)),
    (filepath.stripCommon bs ts).1 = [] → leads bs ts = true := by
  intro bs
  induction bs with
  | nil => intro ts _; rfl
  | cons b bs' ih =>
    intro ts h
    cases ts with
    | nil => simp [filepath.stripCommon] at h
    | cons t ts' =>
      unfold filepath.stripCommon at h
      by_cases hbt : b = t
      · rw [if_pos hbt] at h
        unfold leads
        rw [if_pos hbt]
        exact ih ts' h
      · rw [if_neg hbt] at h
        simp at h

theorem joinCompsL_dotdot (rest : List (List Char)) :
    leads ['.', '.'] (filepath.joinCompsL (['.', '.'] :: rest)) = true := by
  cases rest with
  | nil => rfl
  | cons r rs => simp [filepath.joinCompsL, leads]

theorem relL_confines (b t r : List Char)
    (hb : leads ['/'] (filepath.cleanL b) = true)
    (hok : filepath.relL b t = .ok r)
    (hpre : leads ['.', '.'] r = false) :
    leads (filepath.compsL (filepath.cleanL b)) (filepath.compsL (filepath.cleanL t)) = true := by
  unfold filepath.relL at hok
  by_cases heq : filepath.cleanL t = filepath.cleanL b
  · rw [heq]
    exact leads_refl _
  · rw [if_neg heq] at hok
    have hbdot : filepath.cleanL b ≠ ['.'] := by
      intro h
      rw [h] at hb
      exact absurd hb (by decide)
    rw [if_neg hbdot] at hok
    unfold filepath.relSlashed at hok
    by_cases hsl : (leads ['/'] (filepath.cleanL b)) ≠ (leads ['/'] (filepath.cleanL t))
    · rw [if_pos hsl] at hok
      nomatch hok
    · rw [if_neg hsl] at hok
      unfold filepath.relAfterStrip at hok
      set pr := filepath.stripCommon (filepath.compsL (filepath.cleanL b))
        (filepath.compsL (filepath.cleanL t)) with hprdef
      by_cases hdd : pr.1.head? = some ['.', '.']
      · rw [if_pos hdd] at hok
        nomatch hok
      · rw [if_neg hdd] at hok
        by_cases hne : pr.1 ≠ []
        · rw [if_pos hne] at hok
          have hr : r = filepath.joinCompsL (List.replicate pr.1.length ['.', '.'] ++ pr.2) := by
            injection hok with h
            exact h.symm
          obtain ⟨a, as, hcons⟩ := List.exists_cons_of_ne_nil hne
          have hstart : leads ['.', '.'] r = true := by
            rw [hr, hcons]
            simp only [List.length_cons, List.replicate_succ, List.cons_append]
            exact joinCompsL_dotdot _
          rw [hstart] at hpre
          nomatch hpre
        · exact stripCommon_fst_nil _ _ (not_not.mp hne)

/-- Claim C4: for every path and non-empty base directory (and absolute
working directory), a path accepted by `SanitizePath` is the cleaned
input, and the canonical (absolute, lexically resolved) form of the
returned path lies within the canonical base — the base's path elements
are a leading segment of its own; any path whose canonical form escapes
the base is rejected with an error. -/
theorem sanitizePath_confines_to_base (cwd path base : String)
    (hcwd : filepath.IsAbs cwd = true) (hbase : base ≠ "") :
    (∀ c, filepath.SanitizePath cwd path base = .ok c →
        c = filepath.Clean path ∧
          filepath.isWithin (filepath.Abs cwd c) (filepath.Abs cwd base) = true) ∧
    (filepath.isWithin (filepath.Abs cwd (filepath.Clean path)) (filepath.Abs cwd base) = false →
      ∃ msg, filepath.SanitizePath cwd path base = .error msg) := by
  have hfirst : ∀ c, filepath.SanitizePath cwd path base = .ok c →
      c = filepath.Clean path ∧
        filepath.isWithin (filepath.Abs cwd c) (filepath.Abs cwd base) = true := by
    intro c hok
    unfold filepath.SanitizePath at hok
    rw [if_neg hbase] at hok
    cases hrel : filepath.Rel (filepath.Abs cwd base) (filepath.Abs cwd (filepath.Clean path)) with
    | error e => rw [hrel] at hok; nomatch hok
    | ok rp =>
      rw [hrel] at hok
      dsimp only at hok
      by_cases hsw : goStartsWith rp ".." = true
      · rw [if_pos hsw] at hok
        nomatch hok
      · rw [if_neg hsw] at hok
        simp only [Bool.not_eq_true] at hsw
        have hc : c = filepath.Clean path := by
          injection hok with h
          exact h.symm
        subst hc
        refine ⟨rfl, ?_⟩
        unfold filepath.Rel at hrel
        cases hrl : filepath.relL (filepath.Abs cwd base).data
            (filepath.Abs cwd (filepath.Clean path)).data with
        | error e => rw [hrl] at hrel; nomatch hrel
        | ok l =>
          rw [hrl] at hrel
          have hl : l = rp.data := by
            have : (⟨l⟩ : String) = rp := by
              simpa [Except.map] using hrel
            exact congrArg String.data this
          have hbr : leads ['/'] (filepath.cleanL (filepath.Abs cwd base).data) = true :=
            cleanL_rooted _ (abs_rooted cwd base hcwd)
          have hokl : filepath.relL (filepath.Abs cwd base).data
              (filepath.Abs cwd (filepath.Clean path)).data = .ok rp.data := by
            rw [hrl, hl]
          exact relL_confines _ _ rp.data hbr hokl hsw
  refine ⟨hfirst, ?_⟩
  intro hnw
  cases hsp : filepath.SanitizePath cwd path base with
  | error msg => exact ⟨msg, rfl⟩
  | ok c =>
    obtain ⟨hc, hw⟩ := hfirst c hsp
    rw [hc] at hw
    rw [hw] at hnw
    nomatch hnw

theorem sanitizePath_confines_to_base_witness :
    filepath.IsAbs "/w" = true ∧ ("/data" : String) ≠ "" ∧
      filepath.SanitizePath "/w" "/data/a/../b" "/data" = .ok "/data/b" ∧
      filepath.isWithin (filepath.Abs "/w" "/data/b") (filepath.Abs "/w" "/data") = true :=
  ⟨by decide, by decide, by rfl,
    ((sanitizePath_confines_to_base "/w" "/data/a/../b" "/data" (by decide) (by decide)).1
      "/data/b" (by rfl)).2⟩
